import Mathlib

/-!
Shallow embedding of `star_oaipmh_harvest.py` (STAR OAI-PMH harvester).

The script harvests OAI-PMH `ListRecords` pages, keeps non-deleted records
whose Dublin Core metadata carries a `dc:rights` value equal (case-insensitive,
trimmed) to "Open Access", and flattens each kept record into one CSV row.

XML nodes are modelled by the data the script reads from them:
a record node by its header fields plus an optional Dublin Core payload,
a Dublin Core payload by the raw text of each consumed element
(descriptions additionally carry their optional `xml:lang` attribute),
and a page by its record nodes plus the raw text of the resumption token.
Python's `str.strip` / `str.lower` / `str.join` / `str.split(...)[0]` are
embedded as executable functions on `List Char` / `String`.
-/

/-- Python `str.strip()` whitespace test (embedding uses Lean's notion). -/
def isSpace (c : Char) : Bool := c.isWhitespace

/-- Strip leading and trailing whitespace from a character list. -/
def trimChars (l : List Char) : List Char :=
  ((l.dropWhile isSpace).reverse.dropWhile isSpace).reverse

/-- Embedding of Python `s.strip()`. -/
def pyStrip (s : String) : String := String.mk (trimChars s.data)

/-- Embedding of Python `s.lower()` (ASCII-relevant part). -/
def pyLower (s : String) : String := String.mk (s.data.map Char.toLower)

/-- Embedding of Python `sep.join(l)`. -/
def pyJoin (sep : String) : List String → String
  | [] => ""
  | [x] => x
  | x :: y :: t => x ++ sep ++ pyJoin sep (y :: t)

/-- `texts(nodes)` from the script: strip each node text, keep the non-empty ones. -/
def texts (l : List String) : List String :=
  l.filterMap (fun t => let s := pyStrip t; if s = "" then none else some s)

/-- `join_texts(nodes, sep)` from the script. -/
def join_texts (l : List String) (sep : String) : String := pyJoin sep (texts l)

/-- Python regex `\w` for the inputs at hand: alphanumeric or underscore. -/
def isWordChar (c : Char) : Bool := c.isAlphanum || c = '_'

/-- Does a 4-digit year `18xx|19xx|20xx` begin with these two characters? -/
def isYearStart (a b : Char) : Bool :=
  (a = '1' && (b = '8' || b = '9')) || (a = '2' && b = '0')

/-- Leftmost match of `\b(18|19|20)\d{2}\b` (`prev` is the character before the
current position, `none` at the start of the string). -/
def scanYear : Option Char → List Char → String
  | _, [] => ""
  | prev, c :: cs =>
    match cs with
    | c2 :: c3 :: c4 :: tl =>
      if ((prev.map isWordChar).getD false = false) && isYearStart c c2
          && c3.isDigit && c4.isDigit
          && (((tl.head?).map isWordChar).getD false = false) then
        String.mk [c, c2, c3, c4]
      else scanYear (some c) cs
    | _ => scanYear (some c) cs

/-- `extract_year(date_str)` from the script: first `\b(18|19|20)\d{2}\b` match. -/
def extract_year (date_str : String) : String :=
  if date_str = "" then "" else scanYear none date_str.data

/-- `oai_params(metadata_prefix, set_spec, token)` from the script, as the
ordered key/value list of the request parameters.  A `none` or empty token is
falsy in Python, so it selects the first-page parameter set. -/
def oai_params (metadataFormat setSpecArg : String) (token : Option String) :
    List (String × String) :=
  if token.getD "" ≠ "" then
    [("verb", "ListRecords"), ("resumptionToken", token.getD "")]
  else
    [("verb", "ListRecords"), ("metadataPrefix", metadataFormat)] ++
      (if setSpecArg ≠ "" then [("set", setSpecArg)] else [])

/-- The Dublin Core payload of a record (`oai_dc:dc`):
raw text of each consumed element; `description` keeps its optional
`xml:lang` attribute next to the text. -/
structure DCPayload where
  title : List String
  subject : List String
  description : List (Option String × String)
  language : List String
  identifier : List String
  creator : List String
  date : List String
  rights : List String
  contributor : List String
deriving DecidableEq

/-- One `oai:record` node: header data plus the optional metadata payload. -/
structure RecordNode where
  status : String
  headerIdentifier : String
  datestamp : String
  setSpecs : List String
  metadata : Option DCPayload
deriving DecidableEq

/-- `has_open_access(dc_root)` from the script. -/
def has_open_access (dc : DCPayload) : Bool :=
  (texts dc.rights).any (fun rv => pyLower (pyStrip rv) == "open access")

/-- The single linear pass of `extract_record` over the `setSpec` values,
deriving `(set_ddc, set_etab, is_diffusable)`. -/
def classifyStep (acc : String × String × String) (s : String) :
    String × String × String :=
  if List.isPrefixOf "ddc:".data s.data then (s, acc.2.1, acc.2.2)
  else if s = "diffusable" then (acc.1, acc.2.1, "1")
  else if ':' ∉ s.data ∧ s ≠ "diffusable" then
    (if acc.2.1 = "" then (acc.1, s, acc.2.2) else acc)
  else acc

/-- Derivation of `(set_ddc, set_etab, is_diffusable)` from the tag list. -/
def classifySets (sets : List String) : String × String × String :=
  sets.foldl classifyStep ("", "", "0")

/-- Texts of the `dc:description` nodes whose `xml:lang` attribute is `lang`
(`none` selects the nodes with no `xml:lang` attribute). -/
def descTexts (lang : Option String) (dc : DCPayload) : List String :=
  (dc.description.filter (fun d => d.1 == lang)).map Prod.snd

/-- Does the character list begin with the join separator `" | "`? -/
def startsWithSep (l : List Char) : Bool :=
  match l with
  | a :: b :: c :: _ => a == ' ' && b == '|' && c == ' '
  | _ => false

/-- Everything before the first occurrence of `" | "`:  Python
`joined.split(" | ")[0]` at character-list level. -/
def takeUntilSep : List Char → List Char
  | [] => []
  | c :: cs => if startsWithSep (c :: cs) then [] else c :: takeUntilSep cs

/-- Is `" | "` an occurrence inside the character list? -/
def hasSepOcc : List Char → Bool
  | [] => false
  | c :: cs => startsWithSep (c :: cs) || hasSepOcc cs

/-- The contributor columns: `max_contributors` columns set to `""` first,
then filled in order from the extracted contributor values (extras dropped). -/
def fillContribs : Nat → List String → List String
  | 0, _ => []
  | n + 1, [] => "" :: fillContribs n []
  | n + 1, v :: vs => v :: fillContribs n vs

/-- The flat output row built by `extract_record` (the dict with fixed keys;
the `contributor_i` columns are kept as a list in dict order). -/
structure Row where
  oai_id : String
  setSpecs_raw : String
  set_etab : String
  set_ddc : String
  is_diffusable : String
  title : String
  subject : String
  description_fr : String
  description_en : String
  language : String
  identifier : String
  creator : String
  date : String
  year : String
  rights : String
  contributors : List String
deriving DecidableEq

/-- `extract_record(rec, max_contributors)` from the script. -/
def extract_record (rec : RecordNode) (max_contributors : Nat) : Row × Bool :=
  let sets := texts rec.setSpecs
  let cls := classifySets sets
  let row0 : Row :=
    { oai_id := pyStrip rec.headerIdentifier
      setSpecs_raw := pyJoin " | " sets
      set_etab := cls.2.1
      set_ddc := cls.1
      is_diffusable := cls.2.2
      title := "", subject := "", description_fr := "", description_en := ""
      language := "", identifier := "", creator := "", date := "", year := ""
      rights := ""
      contributors := List.replicate max_contributors "" }
  match rec.metadata with
  | none => (row0, false)
  | some dc =>
    if ¬ has_open_access dc then (row0, false)
    else
      let dateJoined := join_texts dc.date " | "
      let first_date :=
        if dateJoined = "" then "" else pyStrip (String.mk (takeUntilSep dateJoined.data))
      let dFr := pyJoin "\n\n" (texts (descTexts (some "fr") dc))
      let row : Row :=
        { row0 with
          rights := join_texts dc.rights " | "
          title := join_texts dc.title " | "
          language := join_texts dc.language " | "
          identifier := join_texts dc.identifier " | "
          creator := join_texts dc.creator " | "
          subject := join_texts dc.subject " | "
          date := dateJoined
          year := extract_year first_date
          description_fr :=
            if dFr = "" ∧ (dc.description.filter (fun d => d.1 == none)) ≠ [] then
              pyJoin "\n\n" (texts (descTexts none dc))
            else dFr
          description_en := pyJoin "\n\n" (texts (descTexts (some "en") dc))
          contributors := fillContribs max_contributors (texts dc.contributor) }
      (row, true)

/-- One OAI page, as the harvester consumes it: the record nodes and the raw
text of the `resumptionToken` element (`""` when the element is absent). -/
structure Page where
  records : List RecordNode
  tokenText : String
deriving DecidableEq

/-- `parse_page(xml_bytes)` from the script: the record nodes together with the
stripped resumption token. -/
def parse_page (p : Page) : List RecordNode × String :=
  (p.records, pyStrip p.tokenText)

/-- The per-record decision of the harvest loop body: `none` when the record is
skipped (deleted header status, or `extract_record` rejects it), `some row`
when the row is written to the CSV. -/
def emitRow (maxContrib : Nat) (rec : RecordNode) : Option Row :=
  if pyStrip rec.status = "deleted" then none
  else
    let er := extract_record rec maxContrib
    if er.2 then some er.1 else none

/-- Result of a harvest run: rows written in order, the `seen` and `kept`
counters, and the number of page fetches performed. -/
structure HarvestResult where
  rows : List Row
  seen : Nat
  kept : Nat
  fetches : Nat
deriving DecidableEq

/-- The `for rec in records` body of the harvest loop over one page:
rows written (in order), `seen` increment, `kept` increment. -/
def processPage (maxContrib : Nat) : List RecordNode → List Row × Nat × Nat
  | [] => ([], 0, 0)
  | r :: rest =>
    let res := processPage maxContrib rest
    if pyStrip r.status = "deleted" then res
    else
      let er := extract_record r maxContrib
      if er.2 then (er.1 :: res.1, res.2.1 + 1, res.2.2 + 1)
      else (res.1, res.2.1 + 1, res.2.2)

/-- `max_pages is not None and page >= max_pages` from the harvest loop. -/
def pageLimitReached (maxPages : Option Nat) (pageNo : Nat) : Bool :=
  match maxPages with
  | some m => decide (m ≤ pageNo)
  | none => false

/-- The `while True` loop of `harvest`: `pages` is the sequence of responses
the endpoint returns to the successive fetches, `pageNo` the value of the
`page` counter.  Processing a page counts as one fetch; the loop stops when
the page limit is reached or the returned token is empty. -/
def harvestGo (maxContrib : Nat) (maxPages : Option Nat) :
    List Page → Nat → HarvestResult
  | [], _ => ⟨[], 0, 0, 0⟩
  | p :: rest, pageNo =>
    let parsed := parse_page p
    let pp := processPage maxContrib parsed.1
    let pageNo' := pageNo + 1
    let stop := pageLimitReached maxPages pageNo' || parsed.2 == ""
    if stop then ⟨pp.1, pp.2.1, pp.2.2, 1⟩
    else
      let res := harvestGo maxContrib maxPages rest pageNo'
      ⟨pp.1 ++ res.rows, pp.2.1 + res.seen, pp.2.2 + res.kept, 1 + res.fetches⟩

/-- `harvest(...)` from the script, over the sequence of pages the endpoint
returns (requests are issued with `oai_params`; the transport is outside the
model). -/
def harvest (maxPages : Option Nat) (maxContrib : Nat) (pages : List Page) :
    HarvestResult :=
  harvestGo maxContrib maxPages pages 0

/-- The fixed CSV field names before the contributor columns. -/
def fixedFieldNames : List String :=
  ["oai_id", "setSpecs_raw", "set_etab", "set_ddc", "is_diffusable",
   "title", "subject", "description_fr", "description_en",
   "language", "identifier", "creator", "date", "year", "rights"]

/-- Name of the `i`-th contributor column. -/
def contribName (i : Nat) : String := "contributor_" ++ toString i

/-- The row as the ordered key/value list of the Python dict built by
`extract_record`. -/
def Row.toPairs (r : Row) : List (String × String) :=
  [("oai_id", r.oai_id), ("setSpecs_raw", r.setSpecs_raw),
   ("set_etab", r.set_etab), ("set_ddc", r.set_ddc),
   ("is_diffusable", r.is_diffusable), ("title", r.title),
   ("subject", r.subject), ("description_fr", r.description_fr),
   ("description_en", r.description_en), ("language", r.language),
   ("identifier", r.identifier), ("creator", r.creator), ("date", r.date),
   ("year", r.year), ("rights", r.rights)] ++
    ((List.range' 1 r.contributors.length).zip r.contributors).map
      (fun p => (contribName p.1, p.2))

/-! ### String helper lemmas -/

theorem dropWhile_idem {α : Type} (p : α → Bool) (l : List α) :
    (l.dropWhile p).dropWhile p = l.dropWhile p := by
  induction l with
  | nil => rfl
  | cons a t ih =>
    by_cases h : p a
    · simp [List.dropWhile_cons, h, ih]
    · simp [List.dropWhile_cons, h]

theorem dropWhile_head_false {α : Type} (p : α → Bool) (l : List α) (a : α)
    (h : (l.dropWhile p).head? = some a) : p a = false := by
  induction l with
  | nil => simp at h
  | cons b t ih =>
    rw [List.dropWhile_cons] at h
    by_cases hb : p b
    · rw [if_pos hb] at h
      exact ih h
    · rw [if_neg hb] at h
      simp only [List.head?_cons, Option.some.injEq] at h
      subst h
      exact Bool.eq_false_iff.mpr hb

theorem dropWhile_eq_self_of_head {α : Type} (p : α → Bool) (l : List α)
    (h : ∀ a, l.head? = some a → p a = false) : l.dropWhile p = l := by
  cases l with
  | nil => rfl
  | cons a t =>
    have ha := h a rfl
    simp [List.dropWhile_cons, ha]

theorem trimChars_idem (l : List Char) : trimChars (trimChars l) = trimChars l := by
  unfold trimChars
  have hpre : l.dropWhile isSpace =
      ((l.dropWhile isSpace).reverse.dropWhile isSpace).reverse ++
        ((l.dropWhile isSpace).reverse.takeWhile isSpace).reverse := by
    conv_lhs => rw [← List.reverse_reverse (l.dropWhile isSpace),
      ← List.takeWhile_append_dropWhile isSpace (l.dropWhile isSpace).reverse]
    rw [List.reverse_append]
  have hstep1 : ((l.dropWhile isSpace).reverse.dropWhile isSpace).reverse.dropWhile isSpace =
      ((l.dropWhile isSpace).reverse.dropWhile isSpace).reverse := by
    apply dropWhile_eq_self_of_head
    intro a ha
    apply dropWhile_head_false isSpace l a
    cases hB : ((l.dropWhile isSpace).reverse.dropWhile isSpace).reverse with
    | nil => rw [hB] at ha; simp at ha
    | cons b bs =>
      rw [hB] at ha
      simp only [List.head?_cons, Option.some.injEq] at ha
      subst ha
      rw [hpre, hB]
      rfl
  rw [hstep1, List.reverse_reverse, dropWhile_idem]

theorem pyStrip_idem (s : String) : pyStrip (pyStrip s) = pyStrip s := by
  show String.mk (trimChars (String.mk (trimChars s.data)).data) = pyStrip s
  rw [show (String.mk (trimChars s.data)).data = trimChars s.data from rfl, trimChars_idem]
  rfl

theorem pyLower_empty : pyLower "" = "" := rfl

theorem eq_empty_iff_data (s : String) : s = "" ↔ s.data = [] := by
  rw [String.ext_iff]

theorem mem_texts_iff (l : List String) (t : String) :
    t ∈ texts l ↔ ∃ v ∈ l, pyStrip v = t ∧ t ≠ "" := by
  unfold texts
  rw [List.mem_filterMap]
  constructor
  · rintro ⟨v, hv, hf⟩
    dsimp only at hf
    by_cases h : pyStrip v = ""
    · rw [if_pos h] at hf; exact absurd hf (by simp)
    · rw [if_neg h] at hf
      injection hf with hf
      exact ⟨v, hv, hf, hf ▸ h⟩
  · rintro ⟨v, hv, hsv, hne⟩
    refine ⟨v, hv, ?_⟩
    dsimp only
    rw [if_neg (hsv ▸ hne), hsv]

theorem texts_ne_empty {l : List String} {t : String} (h : t ∈ texts l) : t ≠ "" :=
  ((mem_texts_iff l t).1 h).choose_spec.2.2

theorem texts_strip {l : List String} {t : String} (h : t ∈ texts l) : pyStrip t = t := by
  obtain ⟨v, hv, hsv, hne⟩ := (mem_texts_iff l t).1 h
  rw [← hsv, pyStrip_idem]

theorem pyJoin_ne_empty (sep : String) (l : List String) (hl : l ≠ [])
    (h : ∀ x ∈ l, x ≠ "") : pyJoin sep l ≠ "" := by
  match l with
  | [] => exact absurd rfl hl
  | [x] => exact h x (by simp)
  | x :: y :: t =>
    have hx : x ≠ "" := h x (by simp)
    intro hcontra
    have hdata := congrArg String.data hcontra
    have hstep : pyJoin sep (x :: y :: t) = x ++ sep ++ pyJoin sep (y :: t) := rfl
    rw [hstep, String.data_append, String.data_append] at hdata
    cases hx2 : x.data with
    | nil => exact hx ((eq_empty_iff_data x).2 hx2)
    | cons c cs =>
      rw [hx2, show ("" : String).data = [] from rfl] at hdata
      simp at hdata

theorem has_open_access_iff (dc : DCPayload) :
    has_open_access dc = true ↔
      ∃ v ∈ dc.rights, pyLower (pyStrip v) = "open access" := by
  unfold has_open_access
  rw [List.any_eq_true]
  constructor
  · rintro ⟨t, ht, htest⟩
    rw [beq_iff_eq] at htest
    obtain ⟨v, hv, hsv, hne⟩ := (mem_texts_iff _ _).1 ht
    have hst : pyStrip t = t := texts_strip ht
    rw [hst] at htest
    exact ⟨v, hv, hsv ▸ htest⟩
  · rintro ⟨v, hv, hval⟩
    have hne : pyStrip v ≠ "" := by
      intro h0
      rw [h0, pyLower_empty] at hval
      exact absurd hval (by decide)
    refine ⟨pyStrip v, (mem_texts_iff _ _).2 ⟨v, hv, rfl, hne⟩, ?_⟩
    rw [beq_iff_eq, pyStrip_idem]
    exact hval

/-- **C1.** For every harvested record, a row is written (the loop body emits
`some row`) if and only if the record is not marked deleted, its metadata
payload is present, and some `dc:rights` value, trimmed and lowercased, equals
"open access"; rejected records produce no output row at all. -/
theorem c1_row_written_iff_open_access (maxContrib : Nat) (rec : RecordNode) :
    (emitRow maxContrib rec).isSome ↔
      (pyStrip rec.status ≠ "deleted" ∧
        ∃ dc, rec.metadata = some dc ∧
          ∃ v ∈ dc.rights, pyLower (pyStrip v) = "open access") := by
  by_cases hdel : pyStrip rec.status = "deleted"
  · simp [emitRow, hdel]
  · cases hmd : rec.metadata with
    | none => simp [emitRow, hdel, extract_record, hmd]
    | some dc =>
      by_cases hoa : has_open_access dc
      · simp only [emitRow, hdel, extract_record, hmd, hoa, if_false, if_true,
          not_true, not_false_iff, Option.isSome_some, true_iff, ite_not]
        simp [hoa]
        obtain ⟨v, hv, hval⟩ := (has_open_access_iff dc).1 hoa
        exact ⟨hdel, v, hv, hval⟩
      · have hoa' : has_open_access dc = false := Bool.eq_false_iff.mpr hoa
        simp [emitRow, hdel, extract_record, hmd, hoa']
        intro v hv hval
        exact hoa ((has_open_access_iff dc).2 ⟨v, hv, hval⟩)

/-! ### setSpec classification -/

theorem getLast?_getD_cons {α : Type} (a d : α) (l : List α) :
    ((a :: l).getLast?).getD d = (l.getLast?).getD a := by
  induction l generalizing a d with
  | nil => rfl
  | cons b t ih =>
    rw [List.getLast?_cons_cons, ih b d, ih b a]

theorem ddc_colon {l : List Char} (h : List.isPrefixOf "ddc:".data l = true) :
    ':' ∈ l := by
  rw [show "ddc:".data = ['d', 'd', 'c', ':'] from rfl] at h
  match l with
  | [] => simp [List.isPrefixOf] at h
  | [c1] => simp [List.isPrefixOf] at h
  | [c1, c2] => simp [List.isPrefixOf] at h
  | [c1, c2, c3] => simp [List.isPrefixOf] at h
  | c1 :: c2 :: c3 :: c4 :: rest =>
    simp [List.isPrefixOf] at h
    obtain ⟨h1, h2, h3, h4⟩ := h
    subst h4
    simp

theorem foldl_classify (sets : List String) (d e f : String)
    (hne : ∀ s ∈ sets, s ≠ "") :
    List.foldl classifyStep (d, e, f) sets =
      ((List.filter (fun s => List.isPrefixOf "ddc:".data s.data) sets).getLast?.getD d,
       (if e = "" then
          (List.filter (fun s => decide (':' ∉ s.data ∧ s ≠ "diffusable")) sets).head?.getD ""
        else e),
       (if "diffusable" ∈ sets then "1" else f)) := by
  induction sets generalizing d e f with
  | nil =>
    by_cases he : e = "" <;> simp [he]
  | cons s rest ih =>
    have hs : s ≠ "" := hne s (by simp)
    have hrest : ∀ x ∈ rest, x ≠ "" := fun x hx => hne x (by simp [hx])
    rw [List.foldl_cons]
    by_cases h1 : List.isPrefixOf "ddc:".data s.data
    · have hcolon : ':' ∈ s.data := ddc_colon h1
      have hsd : s ≠ "diffusable" := by
        intro heq
        rw [heq] at h1
        exact absurd h1 (by decide)
      have hstep : classifyStep (d, e, f) s = (s, e, f) := by
        unfold classifyStep
        rw [if_pos h1]
      rw [hstep, ih s e f hrest]
      simp only [List.filter_cons, h1, if_true]
      rw [getLast?_getD_cons]
      have hBs : (decide (':' ∉ s.data ∧ s ≠ "diffusable")) = false := by
        simp [hcolon]
      simp [hBs, List.mem_cons, Ne.symm hsd]
    · by_cases h2 : s = "diffusable"
      · have hstep : classifyStep (d, e, f) s = (d, e, "1") := by
          unfold classifyStep
          rw [if_neg h1, if_pos h2]
        rw [hstep, ih d e "1" hrest]
        have hBs : (decide (':' ∉ s.data ∧ s ≠ "diffusable")) = false := by
          simp [h2]
        simp [List.filter_cons, h1, hBs, List.mem_cons, h2]
      · by_cases h3 : ':' ∉ s.data
        · have hcand : decide (':' ∉ s.data ∧ s ≠ "diffusable") = true := by
            simp [h3, h2]
          by_cases he : e = ""
          · have hstep : classifyStep (d, e, f) s = (d, s, f) := by
              unfold classifyStep
              rw [if_neg h1, if_neg h2, if_pos ⟨h3, h2⟩, if_pos he]
            rw [hstep, ih d s f hrest]
            simp [List.filter_cons, h1, hcand, List.mem_cons, h2, h3, he, hs,
              Ne.symm h2]
          · have hstep : classifyStep (d, e, f) s = (d, e, f) := by
              unfold classifyStep
              rw [if_neg h1, if_neg h2, if_pos ⟨h3, h2⟩, if_neg he]
            rw [hstep, ih d e f hrest]
            simp [List.filter_cons, h1, he, List.mem_cons, Ne.symm h2]
        · have hcand : decide (':' ∉ s.data ∧ s ≠ "diffusable") = false := by
            simp at h3
            simp [h3]
          have hstep : classifyStep (d, e, f) s = (d, e, f) := by
            unfold classifyStep
            rw [if_neg h1, if_neg h2, if_neg (fun hc => h3 hc.1)]
          have h3' : ':' ∈ s.data := not_not.mp h3
          rw [hstep, ih d e f hrest]
          simp [List.filter_cons, h1, hcand, h3', List.mem_cons, Ne.symm h2]

/-- **C3.** Over the category tags of a record (the stripped non-empty
`setSpec` texts): the classification tag is the last tag starting with
`ddc:` (empty if none), the diffusable flag is `"1"` exactly when some tag
equals `diffusable` (else `"0"`), and the institution tag is the first tag
containing no colon and not equal to `diffusable` (empty if none). -/
theorem c3_setspec_classification (raw : List String) :
    classifySets (texts raw) =
      (((texts raw).filter (fun s => List.isPrefixOf "ddc:".data s.data)).getLast?.getD "",
       ((texts raw).filter (fun s => decide (':' ∉ s.data ∧ s ≠ "diffusable"))).head?.getD "",
       if "diffusable" ∈ texts raw then "1" else "0") := by
  unfold classifySets
  rw [foldl_classify _ "" "" "0" (fun s hs => texts_ne_empty hs)]
  simp

/-! ### Harvest loop lemmas -/

theorem processPage_eq (maxContrib : Nat) (recs : List RecordNode) :
    processPage maxContrib recs =
      (recs.filterMap (emitRow maxContrib),
       recs.countP (fun r => !(pyStrip r.status == "deleted")),
       (recs.filterMap (emitRow maxContrib)).length) := by
  induction recs with
  | nil => rfl
  | cons r rest ih =>
    by_cases hdel : pyStrip r.status = "deleted"
    · have hemit : emitRow maxContrib r = none := by simp [emitRow, hdel]
      simp [processPage, hdel, ih, hemit, List.filterMap_cons, List.countP_cons]
    · cases hok : (extract_record r maxContrib).2
      · have hemit : emitRow maxContrib r = none := by
          simp [emitRow, hdel, hok]
        simp [processPage, hdel, ih, hemit, List.filterMap_cons,
          List.countP_cons, hok]
      · have hemit : emitRow maxContrib r = some (extract_record r maxContrib).1 := by
          simp [emitRow, hdel, hok]
        simp [processPage, hdel, ih, hemit, List.filterMap_cons,
          List.countP_cons, hok]

theorem harvestGo_eq (maxContrib : Nat) (maxPages : Option Nat)
    (pages : List Page) (k : Nat) :
    (harvestGo maxContrib maxPages pages k).rows =
        ((pages.take (harvestGo maxContrib maxPages pages k).fetches).flatMap
          Page.records).filterMap (emitRow maxContrib) ∧
      (harvestGo maxContrib maxPages pages k).seen =
        ((pages.take (harvestGo maxContrib maxPages pages k).fetches).flatMap
          Page.records).countP (fun r => !(pyStrip r.status == "deleted")) ∧
      (harvestGo maxContrib maxPages pages k).kept =
        (((pages.take (harvestGo maxContrib maxPages pages k).fetches).flatMap
          Page.records).filterMap (emitRow maxContrib)).length := by
  induction pages generalizing k with
  | nil => simp [harvestGo]
  | cons p rest ih =>
    by_cases hstop :
        (pageLimitReached maxPages (k + 1) || (pyStrip p.tokenText == "")) = true
    · have hres : harvestGo maxContrib maxPages (p :: rest) k =
          ⟨(processPage maxContrib p.records).1,
           (processPage maxContrib p.records).2.1,
           (processPage maxContrib p.records).2.2, 1⟩ := by
        simp only [harvestGo, parse_page, hstop, if_true]
      rw [hres, processPage_eq]
      simp [List.take_succ_cons, List.flatMap_cons]
    · have hres : harvestGo maxContrib maxPages (p :: rest) k =
          ⟨(processPage maxContrib p.records).1 ++
             (harvestGo maxContrib maxPages rest (k + 1)).rows,
           (processPage maxContrib p.records).2.1 +
             (harvestGo maxContrib maxPages rest (k + 1)).seen,
           (processPage maxContrib p.records).2.2 +
             (harvestGo maxContrib maxPages rest (k + 1)).kept,
           1 + (harvestGo maxContrib maxPages rest (k + 1)).fetches⟩ := by
        simp only [harvestGo, parse_page, hstop, if_false, Bool.false_eq_true]
      rw [hres, processPage_eq]
      obtain ⟨ih1, ih2, ih3⟩ := ih (k + 1)
      simp only [Nat.add_comm 1 (harvestGo maxContrib maxPages rest (k + 1)).fetches]
      rw [List.take_succ_cons, List.flatMap_cons, List.filterMap_append,
        List.countP_append, List.length_append]
      constructor
      · rw [ih1]
      constructor
      · rw [ih2]
      · rw [ih3]

/-- **C8.** Across the whole run, the rows written are exactly the accepted
records of the fetched pages, in endpoint order: the output is the
order-preserving `filterMap` of the per-record emission over the concatenated
records of the fetched pages (no reordering, duplication or deduplication). -/
theorem c8_output_order (maxPages : Option Nat) (maxContrib : Nat)
    (pages : List Page) :
    (harvest maxPages maxContrib pages).rows =
      ((pages.take (harvest maxPages maxContrib pages).fetches).flatMap
        Page.records).filterMap (emitRow maxContrib) :=
  (harvestGo_eq maxContrib maxPages pages 0).1

/-- **C2 counterexample.** A run over one page holding a single deleted record:
the claim says `seen` is still incremented (so `seen = 1`), but the loop
`continue`s before the increment and the run ends with `seen = 0`. -/
theorem c2_counterexample :
    pyStrip ("deleted" : String) = "deleted" ∧
      (harvest none 3
        [Page.mk [RecordNode.mk "deleted" "oai:1" "" [] none] ""]).seen = 0 ∧
      (harvest none 3
        [Page.mk [RecordNode.mk "deleted" "oai:1" "" [] none] ""]).rows = [] := by
  refine ⟨by decide, ?_, ?_⟩ <;> rfl

/-- **C2 (amended).** No row is emitted for a deleted record or a record with
no metadata payload; the `seen` counter counts exactly the non-deleted records
returned by the endpoint on the fetched pages (deleted records are skipped
before the increment, so they are not counted). -/
theorem c2_amended_seen_counts_nondeleted (maxPages : Option Nat)
    (maxContrib : Nat) (pages : List Page) :
    (harvest maxPages maxContrib pages).seen =
        ((pages.take (harvest maxPages maxContrib pages).fetches).flatMap
          Page.records).countP (fun r => !(pyStrip r.status == "deleted")) ∧
      ∀ rec : RecordNode, pyStrip rec.status ≠ "deleted" → rec.metadata = none →
        emitRow maxContrib rec = none := by
  refine ⟨(harvestGo_eq maxContrib maxPages pages 0).2.1, ?_⟩
  intro rec hdel hmd
  simp [emitRow, hdel, extract_record, hmd]

/-- Witness for the amended C2 at a concrete non-deleted record with no
metadata payload. -/
theorem c2_amended_witness :
    emitRow 3 (RecordNode.mk "" "oai:2" "" [] none) = none :=
  (c2_amended_seen_counts_nondeleted none 3 []).2
    (RecordNode.mk "" "oai:2" "" [] none) (by decide) rfl

theorem harvestGo_fetches (maxContrib : Nat) (maxPages : Option Nat)
    (plast : Page) (hlast : pyStrip plast.tokenText = "") :
    ∀ (front : List Page) (k : Nat),
      (∀ p ∈ front, pyStrip p.tokenText ≠ "") →
      (∀ m, maxPages = some m → k + front.length + 1 < m) →
      (harvestGo maxContrib maxPages (front ++ [plast]) k).fetches =
        front.length + 1 := by
  intro front
  induction front with
  | nil =>
    intro k hf hm
    have hstop :
        (pageLimitReached maxPages (k + 1) || (pyStrip plast.tokenText == "")) = true := by
      simp [hlast]
    simp only [List.nil_append, harvestGo, parse_page, hstop, if_true,
      List.length_nil]
  | cons p rest ih =>
    intro k hf hm
    have hp : pyStrip p.tokenText ≠ "" := hf p (by simp)
    have hnotlimit : pageLimitReached maxPages (k + 1) = false := by
      cases maxPages with
      | none => rfl
      | some m =>
        have hlt := hm m rfl
        simp only [pageLimitReached, decide_eq_false_iff_not]
        omega
    have hstop :
        (pageLimitReached maxPages (k + 1) || (pyStrip p.tokenText == "")) = false := by
      simp [hnotlimit, hp]
    have hrec := ih (k + 1) (fun q hq => hf q (by simp [hq]))
      (by intro m hm2; have := hm m hm2; simp only [List.length_cons] at this ⊢; omega)
    have hfetch : (harvestGo maxContrib maxPages ((p :: rest) ++ [plast]) k).fetches =
        1 + (harvestGo maxContrib maxPages (rest ++ [plast]) (k + 1)).fetches := by
      simp only [List.cons_append, harvestGo, parse_page, hstop,
        Bool.false_eq_true, if_false]
      rfl
    rw [hfetch, hrec, List.length_cons]
    omega

/-- **C4.** If the Nth page is the first to return an empty resumption token
(the first N-1 pages return non-empty tokens), the harvest loop performs
exactly N fetches and terminates, for any configured page limit greater
than N — and also with no page limit at all. -/
theorem c4_pagination_fetch_count (front : List Page) (plast : Page)
    (maxPages : Option Nat) (maxContrib : Nat)
    (hfront : ∀ p ∈ front, pyStrip p.tokenText ≠ "")
    (hlast : pyStrip plast.tokenText = "")
    (hlim : ∀ m, maxPages = some m → front.length + 1 < m) :
    (harvest maxPages maxContrib (front ++ [plast])).fetches =
      front.length + 1 := by
  unfold harvest
  exact harvestGo_fetches maxContrib maxPages plast hlast front 0 hfront
    (by intro m hm; have := hlim m hm; omega)

/-- Witness for C4: two pages, the second with an empty token, page limit 5:
exactly 2 fetches. -/
theorem c4_witness :
    (harvest (some 5) 3 [Page.mk [] "t1", Page.mk [] ""]).fetches = 2 :=
  c4_pagination_fetch_count [Page.mk [] "t1"] (Page.mk [] "") (some 5) 3
    (by intro p hp
        simp only [List.mem_singleton] at hp
        subst hp
        decide)
    (by decide)
    (by intro m hm
        injection hm with hm
        subst hm
        decide)

/-! ### The accepted branch of `extract_record` -/

theorem extract_record_some (rec : RecordNode) (dc : DCPayload) (maxC : Nat)
    (hmd : rec.metadata = some dc) (hoa : has_open_access dc = true) :
    extract_record rec maxC =
      ({ oai_id := pyStrip rec.headerIdentifier
         setSpecs_raw := pyJoin " | " (texts rec.setSpecs)
         set_etab := (classifySets (texts rec.setSpecs)).2.1
         set_ddc := (classifySets (texts rec.setSpecs)).1
         is_diffusable := (classifySets (texts rec.setSpecs)).2.2
         title := join_texts dc.title " | "
         subject := join_texts dc.subject " | "
         description_fr :=
           if pyJoin "\n\n" (texts (descTexts (some "fr") dc)) = "" ∧
               (dc.description.filter (fun d => d.1 == (none : Option String))) ≠ [] then
             pyJoin "\n\n" (texts (descTexts none dc))
           else pyJoin "\n\n" (texts (descTexts (some "fr") dc))
         description_en := pyJoin "\n\n" (texts (descTexts (some "en") dc))
         language := join_texts dc.language " | "
         identifier := join_texts dc.identifier " | "
         creator := join_texts dc.creator " | "
         date := join_texts dc.date " | "
         year := extract_year (if join_texts dc.date " | " = "" then ""
           else pyStrip (String.mk (takeUntilSep (join_texts dc.date " | ").data)))
         rights := join_texts dc.rights " | "
         contributors := fillContribs maxC (texts dc.contributor) }, true) := by
  simp only [extract_record, hmd]
  rw [if_neg (by simp [hoa])]

/-- **C5.** For every accepted record, `description_fr` is the
blank-line-separated join of the "fr"-tagged description values, falling back
to the untagged description values only when there is no "fr"-tagged value;
`description_en` is the blank-line-separated join of the "en"-tagged values
and never receives untagged values. -/
theorem c5_description_language_fallback (rec : RecordNode) (dc : DCPayload)
    (maxContrib : Nat) (hmd : rec.metadata = some dc)
    (hoa : has_open_access dc = true) :
    (extract_record rec maxContrib).1.description_fr =
        (if texts (descTexts (some "fr") dc) = [] then
          pyJoin "\n\n" (texts (descTexts none dc))
        else pyJoin "\n\n" (texts (descTexts (some "fr") dc))) ∧
      (extract_record rec maxContrib).1.description_en =
        pyJoin "\n\n" (texts (descTexts (some "en") dc)) := by
  rw [extract_record_some rec dc maxContrib hmd hoa]
  refine ⟨?_, rfl⟩
  by_cases hfr : texts (descTexts (some "fr") dc) = []
  · rw [if_pos hfr]
    by_cases hnl : (dc.description.filter (fun d => d.1 == (none : Option String))) = []
    · rw [if_neg (by simp [hnl])]
      have : descTexts none dc = [] := by
        unfold descTexts
        rw [hnl]
        rfl
      rw [hfr, this]
      rfl
    · rw [if_pos ⟨by rw [hfr]; rfl, hnl⟩]
  · rw [if_neg hfr]
    have hne : pyJoin "\n\n" (texts (descTexts (some "fr") dc)) ≠ "" :=
      pyJoin_ne_empty "\n\n" _ hfr (fun x hx => texts_ne_empty hx)
    rw [if_neg (fun hc => hne hc.1)]

/-- Witness for C5 at a record whose descriptions are one untagged value and
one "en"-tagged value (no "fr"): the untagged value lands in
`description_fr`. -/
theorem c5_witness :
    (extract_record (RecordNode.mk "" "oai:w5" "" []
        (some (DCPayload.mk [] [] [(none, "plain"), (some "en", "hello")] [] [] [] []
          ["Open Access"] []))) 3).1.description_fr =
        (if texts (descTexts (some "fr")
            (DCPayload.mk [] [] [(none, "plain"), (some "en", "hello")] [] [] [] []
              ["Open Access"] [])) = [] then
          pyJoin "\n\n" (texts (descTexts none
            (DCPayload.mk [] [] [(none, "plain"), (some "en", "hello")] [] [] [] []
              ["Open Access"] [])))
        else pyJoin "\n\n" (texts (descTexts (some "fr")
          (DCPayload.mk [] [] [(none, "plain"), (some "en", "hello")] [] [] [] []
            ["Open Access"] [])))) ∧
      (extract_record (RecordNode.mk "" "oai:w5" "" []
          (some (DCPayload.mk [] [] [(none, "plain"), (some "en", "hello")] [] [] [] []
            ["Open Access"] []))) 3).1.description_en =
        pyJoin "\n\n" (texts (descTexts (some "en")
          (DCPayload.mk [] [] [(none, "plain"), (some "en", "hello")] [] [] [] []
            ["Open Access"] []))) :=
  c5_description_language_fallback _ _ 3 rfl (by decide)

theorem fillContribs_eq (n : Nat) (vals : List String) :
    fillContribs n vals = vals.take n ++ List.replicate (n - vals.length) "" := by
  induction n generalizing vals with
  | zero => simp [fillContribs]
  | succ n ih =>
    cases vals with
    | nil => simp [fillContribs, ih, List.replicate_succ]
    | cons v vs =>
      simp only [fillContribs, ih, List.take_succ_cons, List.length_cons,
        Nat.succ_sub_succ, List.cons_append]

/-- **C6.** For every accepted record: with at least N contributor values
(N the configured maximum), exactly the first N values populate the
contributor columns in encounter order and the rest are dropped; with fewer
than N values, the remaining columns are empty strings. -/
theorem c6_contributor_columns (rec : RecordNode) (dc : DCPayload)
    (maxContrib : Nat) (hmd : rec.metadata = some dc)
    (hoa : has_open_access dc = true) :
    (maxContrib ≤ (texts dc.contributor).length →
        (extract_record rec maxContrib).1.contributors =
          (texts dc.contributor).take maxContrib) ∧
      ((texts dc.contributor).length < maxContrib →
        (extract_record rec maxContrib).1.contributors =
          texts dc.contributor ++
            List.replicate (maxContrib - (texts dc.contributor).length) "") := by
  rw [extract_record_some rec dc maxContrib hmd hoa]
  constructor
  · intro hge
    show fillContribs maxContrib (texts dc.contributor) = _
    rw [fillContribs_eq, Nat.sub_eq_zero_of_le hge, List.replicate_zero,
      List.append_nil]
  · intro hlt
    show fillContribs maxContrib (texts dc.contributor) = _
    rw [fillContribs_eq, List.take_of_length_le (Nat.le_of_lt hlt)]

/-- Witness for C6: three contributor values with N = 2 keep the first two;
two values with N = 3 leave the third column empty. -/
theorem c6_witness :
    (extract_record (RecordNode.mk "" "oai:w6" "" []
        (some (DCPayload.mk [] [] [] [] [] [] [] ["Open Access"]
          ["a", "b", "c"]))) 2).1.contributors =
        (texts ["a", "b", "c"]).take 2 ∧
      (extract_record (RecordNode.mk "" "oai:w6" "" []
          (some (DCPayload.mk [] [] [] [] [] [] [] ["Open Access"]
            ["a", "b"]))) 3).1.contributors =
        texts ["a", "b"] ++ List.replicate (3 - (texts ["a", "b"]).length) "" :=
  ⟨(c6_contributor_columns _ _ 2 rfl (by decide)).1 (by decide),
   (c6_contributor_columns _ _ 3 rfl (by decide)).2 (by decide)⟩

/-- **C9.** With a non-empty resumption token (the only way the loop issues a
request after the first page), the request parameters are exactly the verb and
the token — no metadata-format and no set parameter; with no token (first
page) they are the verb, the metadata format, and the set filter exactly when
one is configured (non-empty). -/
theorem c9_request_params (metadataFormat setSpecArg t : String) (ht : t ≠ "") :
    oai_params metadataFormat setSpecArg (some t) =
        [("verb", "ListRecords"), ("resumptionToken", t)] ∧
      "metadataPrefix" ∉ (oai_params metadataFormat setSpecArg (some t)).map Prod.fst ∧
      "set" ∉ (oai_params metadataFormat setSpecArg (some t)).map Prod.fst ∧
      oai_params metadataFormat setSpecArg none =
        [("verb", "ListRecords"), ("metadataPrefix", metadataFormat)] ++
          (if setSpecArg ≠ "" then [("set", setSpecArg)] else []) := by
  have h1 : oai_params metadataFormat setSpecArg (some t) =
      [("verb", "ListRecords"), ("resumptionToken", t)] := by
    unfold oai_params
    rw [if_pos (by simpa using ht)]
    rfl
  refine ⟨h1, ?_, ?_, ?_⟩
  · rw [h1]
    simp
  · rw [h1]
    simp
  · unfold oai_params
    rw [if_neg (by simp)]

/-- Witness for C9 at concrete parameter values. -/
theorem c9_witness :
    oai_params "oai_dc" "diffusable" (some "tok123") =
        [("verb", "ListRecords"), ("resumptionToken", "tok123")] ∧
      "metadataPrefix" ∉ (oai_params "oai_dc" "diffusable" (some "tok123")).map Prod.fst ∧
      "set" ∉ (oai_params "oai_dc" "diffusable" (some "tok123")).map Prod.fst ∧
      oai_params "oai_dc" "diffusable" none =
        [("verb", "ListRecords"), ("metadataPrefix", "oai_dc")] ++
          (if ("diffusable" : String) ≠ "" then [("set", "diffusable")] else []) :=
  c9_request_params "oai_dc" "diffusable" "tok123" (by decide)

/-! ### Row shape -/

theorem extract_record_reject (rec : RecordNode) (maxC : Nat)
    (h : rec.metadata = none ∨
      ∃ dc, rec.metadata = some dc ∧ has_open_access dc = false) :
    extract_record rec maxC =
      ({ oai_id := pyStrip rec.headerIdentifier
         setSpecs_raw := pyJoin " | " (texts rec.setSpecs)
         set_etab := (classifySets (texts rec.setSpecs)).2.1
         set_ddc := (classifySets (texts rec.setSpecs)).1
         is_diffusable := (classifySets (texts rec.setSpecs)).2.2
         title := "", subject := "", description_fr := "", description_en := ""
         language := "", identifier := "", creator := "", date := "", year := ""
         rights := ""
         contributors := List.replicate maxC "" }, false) := by
  rcases h with hmd | ⟨dc, hmd, hoa⟩
  · simp only [extract_record, hmd]
  · simp only [extract_record, hmd]
    rw [if_pos (by simp [hoa])]

theorem fillContribs_length (n : Nat) (vals : List String) :
    (fillContribs n vals).length = n := by
  rw [fillContribs_eq]
  simp only [List.length_append, List.length_take, List.length_replicate]
  omega

theorem classifySets_diffusable (raw : List String) :
    (classifySets (texts raw)).2.2 = "0" ∨ (classifySets (texts raw)).2.2 = "1" := by
  unfold classifySets
  rw [foldl_classify _ "" "" "0" (fun s hs => texts_ne_empty hs)]
  by_cases h : "diffusable" ∈ texts raw
  · right
    simp [h]
  · left
    simp [h]

theorem toPairs_keys (maxContrib : Nat) (r : Row)
    (hr : r.contributors.length = maxContrib) :
    r.toPairs.map Prod.fst =
      fixedFieldNames ++ (List.range' 1 maxContrib).map contribName := by
  unfold Row.toPairs fixedFieldNames
  rw [List.map_append]
  congr 1
  have hmm : List.map Prod.fst
      (List.map (fun p : Nat × String => (contribName p.1, p.2))
        ((List.range' 1 r.contributors.length).zip r.contributors)) =
      List.map contribName
        (List.map Prod.fst ((List.range' 1 r.contributors.length).zip r.contributors)) := by
    rw [List.map_map, List.map_map]
    rfl
  rw [hmm, List.map_fst_zip _ _ (by rw [List.length_range']), hr]

/-- **C10.** For every record node and contributor bound N, the extractor
returns a (row, flag) pair whose key list is exactly the 15 fixed fields
followed by `contributor_1 .. contributor_N`; `is_diffusable` is always `"0"`
or `"1"`; and on a rejected record every content field of the row is the
empty string (the header-derived fields may be populated). -/
theorem c10_row_shape (rec : RecordNode) (maxContrib : Nat) :
    ((extract_record rec maxContrib).1.toPairs.map Prod.fst =
        fixedFieldNames ++ (List.range' 1 maxContrib).map contribName) ∧
      ((extract_record rec maxContrib).1.is_diffusable = "0" ∨
        (extract_record rec maxContrib).1.is_diffusable = "1") ∧
      ((extract_record rec maxContrib).2 = false →
        (extract_record rec maxContrib).1.title = "" ∧
        (extract_record rec maxContrib).1.subject = "" ∧
        (extract_record rec maxContrib).1.description_fr = "" ∧
        (extract_record rec maxContrib).1.description_en = "" ∧
        (extract_record rec maxContrib).1.language = "" ∧
        (extract_record rec maxContrib).1.identifier = "" ∧
        (extract_record rec maxContrib).1.creator = "" ∧
        (extract_record rec maxContrib).1.date = "" ∧
        (extract_record rec maxContrib).1.year = "" ∧
        (extract_record rec maxContrib).1.rights = "" ∧
        (extract_record rec maxContrib).1.contributors =
          List.replicate maxContrib "") := by
  have hlen : (extract_record rec maxContrib).1.contributors.length = maxContrib := by
    cases hmd : rec.metadata with
    | none =>
      rw [extract_record_reject rec maxContrib (Or.inl hmd)]
      exact List.length_replicate maxContrib ""
    | some dc =>
      cases hoa : has_open_access dc with
      | false =>
        rw [extract_record_reject rec maxContrib (Or.inr ⟨dc, hmd, hoa⟩)]
        exact List.length_replicate maxContrib ""
      | true =>
        rw [extract_record_some rec dc maxContrib hmd hoa]
        exact fillContribs_length maxContrib _
  refine ⟨toPairs_keys maxContrib _ hlen, ?_, ?_⟩
  · cases hmd : rec.metadata with
    | none =>
      rw [extract_record_reject rec maxContrib (Or.inl hmd)]
      exact classifySets_diffusable rec.setSpecs
    | some dc =>
      cases hoa : has_open_access dc with
      | false =>
        rw [extract_record_reject rec maxContrib (Or.inr ⟨dc, hmd, hoa⟩)]
        exact classifySets_diffusable rec.setSpecs
      | true =>
        rw [extract_record_some rec dc maxContrib hmd hoa]
        exact classifySets_diffusable rec.setSpecs
  · intro hfalse
    cases hmd : rec.metadata with
    | none =>
      rw [extract_record_reject rec maxContrib (Or.inl hmd)]
      exact ⟨rfl, rfl, rfl, rfl, rfl, rfl, rfl, rfl, rfl, rfl, rfl⟩
    | some dc =>
      cases hoa : has_open_access dc with
      | false =>
        rw [extract_record_reject rec maxContrib (Or.inr ⟨dc, hmd, hoa⟩)]
        exact ⟨rfl, rfl, rfl, rfl, rfl, rfl, rfl, rfl, rfl, rfl, rfl⟩
      | true =>
        rw [extract_record_some rec dc maxContrib hmd hoa] at hfalse
        exact absurd hfalse (by simp)

/-- Witness for C10: the rejected-record clause at a concrete record with no
metadata payload. -/
theorem c10_witness :
    (extract_record (RecordNode.mk "" "oai:w10" "" ["diffusable"] none) 2).1.title = "" ∧
      (extract_record (RecordNode.mk "" "oai:w10" "" ["diffusable"] none) 2).1.subject = "" ∧
      (extract_record (RecordNode.mk "" "oai:w10" "" ["diffusable"] none) 2).1.description_fr = "" ∧
      (extract_record (RecordNode.mk "" "oai:w10" "" ["diffusable"] none) 2).1.description_en = "" ∧
      (extract_record (RecordNode.mk "" "oai:w10" "" ["diffusable"] none) 2).1.language = "" ∧
      (extract_record (RecordNode.mk "" "oai:w10" "" ["diffusable"] none) 2).1.identifier = "" ∧
      (extract_record (RecordNode.mk "" "oai:w10" "" ["diffusable"] none) 2).1.creator = "" ∧
      (extract_record (RecordNode.mk "" "oai:w10" "" ["diffusable"] none) 2).1.date = "" ∧
      (extract_record (RecordNode.mk "" "oai:w10" "" ["diffusable"] none) 2).1.year = "" ∧
      (extract_record (RecordNode.mk "" "oai:w10" "" ["diffusable"] none) 2).1.rights = "" ∧
      (extract_record (RecordNode.mk "" "oai:w10" "" ["diffusable"] none) 2).1.contributors =
        List.replicate 2 "" :=
  (c10_row_shape (RecordNode.mk "" "oai:w10" "" ["diffusable"] none) 2).2.2 rfl

/-! ### Year extraction (C7) -/

/-- **C7 counterexample.** A record whose single date value `"circa | 1998"`
contains the join separator: scanning the first date value yields `"1998"`,
but the code splits the joined date string and scans only `"circa"`, so the
row's `year` is `""`. -/
theorem c7_counterexample :
    (extract_record (RecordNode.mk "" "oai:7" "" []
        (some (DCPayload.mk [] [] [] [] [] [] ["circa | 1998"]
          ["Open Access"] []))) 3).1.year = "" ∧
      extract_year "circa | 1998" = "1998" := by
  constructor <;> rfl

theorem hasSepOcc_append_of {l : List Char} (m : List Char)
    (h : hasSepOcc l = true) : hasSepOcc (l ++ m) = true := by
  induction l with
  | nil => simp [hasSepOcc] at h
  | cons c cs ih =>
    simp only [hasSepOcc, Bool.or_eq_true] at h
    rw [List.cons_append]
    simp only [hasSepOcc, Bool.or_eq_true]
    rcases h with h1 | h2
    · left
      cases cs with
      | nil => simp [startsWithSep] at h1
      | cons b bs =>
        cases bs with
        | nil => simp [startsWithSep] at h1
        | cons c2 cs2 =>
          simp only [startsWithSep] at h1 ⊢
          simpa using h1
    · exact Or.inr (ih h2)

theorem hasSepOcc_of_append_eq_false {l m : List Char}
    (h : hasSepOcc (l ++ m) = false) : hasSepOcc l = false := by
  cases hl : hasSepOcc l with
  | false => rfl
  | true =>
    rw [hasSepOcc_append_of m hl] at h
    simp at h

theorem takeUntilSep_no_occ {l : List Char} (h : hasSepOcc l = false) :
    takeUntilSep l = l := by
  induction l with
  | nil => rfl
  | cons c cs ih =>
    simp only [hasSepOcc, Bool.or_eq_false_iff] at h
    simp only [takeUntilSep, h.1, Bool.false_eq_true, if_false]
    rw [ih h.2]

theorem takeUntilSep_append_sep (d r : List Char)
    (h : hasSepOcc (d ++ [' ']) = false) :
    takeUntilSep (d ++ (' ' :: '|' :: ' ' :: r)) = d := by
  induction d with
  | nil =>
    simp only [List.nil_append, takeUntilSep]
    rw [if_pos (by simp [startsWithSep])]
  | cons c cs ih =>
    rw [List.cons_append] at h
    simp only [hasSepOcc, Bool.or_eq_false_iff] at h
    have hsw : startsWithSep (c :: (cs ++ (' ' :: '|' :: ' ' :: r))) = false := by
      cases cs with
      | nil =>
        simp [startsWithSep]
      | cons b bs =>
        cases bs with
        | nil =>
          have := h.1
          simp only [startsWithSep, List.cons_append, List.nil_append] at this ⊢
          simpa using this
        | cons c2 cs2 =>
          have := h.1
          simp only [startsWithSep, List.cons_append] at this ⊢
          simpa using this
    rw [List.cons_append, takeUntilSep, if_neg (by simp [hsw])]
    rw [ih h.2]

theorem mk_data_eq (s : String) : String.mk s.data = s := rfl

/-- **C7 (amended).** The year is derived by scanning the text before the
first `" | "` of the joined date string for a `\b(18|19|20)\d{2}\b` token.
Whenever the first date value neither contains `" | "` nor ends in `" |"`
(in particular whenever it does not contain the separator at all, the normal
case), this is exactly a scan of the first date value; the spec's concrete
examples hold: `"2019-05-10" ↦ "2019"`, `"circa 1998?" ↦ "1998"`, and an
empty or token-free date yields `""`. -/
theorem c7_amended_year :
    (∀ (rec : RecordNode) (dc : DCPayload) (maxContrib : Nat) (d0 : String),
      rec.metadata = some dc → has_open_access dc = true →
      (texts dc.date).head? = some d0 → hasSepOcc (d0.data ++ [' ']) = false →
      (extract_record rec maxContrib).1.year = extract_year d0) ∧
      extract_year "2019-05-10" = "2019" ∧
      extract_year "circa 1998?" = "1998" ∧
      extract_year "" = "" := by
  refine ⟨?_, rfl, rfl, rfl⟩
  intro rec dc maxContrib d0 hmd hoa hhead hnosep
  rw [extract_record_some rec dc maxContrib hmd hoa]
  obtain ⟨rest, hrest⟩ : ∃ rest, texts dc.date = d0 :: rest := by
    cases h : texts dc.date with
    | nil => rw [h] at hhead; simp at hhead
    | cons a t =>
      rw [h] at hhead
      simp only [List.head?_cons, Option.some.injEq] at hhead
      exact ⟨t, by rw [hhead]⟩
  have hd0mem : d0 ∈ texts dc.date := by rw [hrest]; simp
  have hd0ne : d0 ≠ "" := texts_ne_empty hd0mem
  have hd0strip : pyStrip d0 = d0 := texts_strip hd0mem
  show extract_year (if join_texts dc.date " | " = "" then ""
    else pyStrip (String.mk (takeUntilSep (join_texts dc.date " | ").data))) =
    extract_year d0
  unfold join_texts
  rw [hrest]
  cases rest with
  | nil =>
    rw [show pyJoin " | " [d0] = d0 from rfl, if_neg hd0ne]
    rw [takeUntilSep_no_occ (hasSepOcc_of_append_eq_false hnosep), mk_data_eq,
      hd0strip]
  | cons r rs =>
    have hjoin : pyJoin " | " (d0 :: r :: rs) = d0 ++ " | " ++ pyJoin " | " (r :: rs) :=
      rfl
    rw [hjoin]
    have hdata : (d0 ++ " | " ++ pyJoin " | " (r :: rs)).data =
        d0.data ++ (' ' :: '|' :: ' ' :: (pyJoin " | " (r :: rs)).data) := by
      rw [String.data_append, String.data_append, List.append_assoc]
      rfl
    have hne : d0 ++ " | " ++ pyJoin " | " (r :: rs) ≠ "" := by
      intro hc
      have hc2 := congrArg String.data hc
      rw [hdata] at hc2
      simp at hc2
    rw [if_neg hne, hdata, takeUntilSep_append_sep d0.data _ hnosep, mk_data_eq,
      hd0strip]

/-- Witness for the amended C7 at a record with first date value
`"circa 1998?"` (no separator): the row's year is the scan of that value. -/
theorem c7_amended_witness :
    (extract_record (RecordNode.mk "" "oai:w7" "" []
        (some (DCPayload.mk [] [] [] [] [] [] ["circa 1998?"]
          ["Open Access"] []))) 3).1.year = extract_year "circa 1998?" :=
  c7_amended_year.1 _ _ 3 "circa 1998?" rfl (by decide) (by decide) (by decide)
